import Mathlib

/-!
Verification development for the goosebit device update manager
(`src/goosebit/updater/manager.py`).  The Python module is shallowly
embedded: devices, firmware and the manager's process-wide tables
(cache, persisted records, log subscribers, poll-time overrides,
broadcast trace, telemetry gauge) become a Lean state record, and each
method becomes a pure state-passing function translated line by line
from the source.
-/

set_option autoImplicit false

namespace Goosebit

/-- Embedding of `HandlingType` (manager.py lines 26-29). -/
inductive HandlingType where
  | skip
  | attempt
  | forced
deriving DecidableEq

/-- Modelled from the spec: the `UpdateStateEnum` enumeration imported from
`goosebit.models` (not under `src/`); §3 lists UNKNOWN, REGISTERED, RUNNING,
UPDATING, ERROR. -/
inductive UpdateStateEnum where
  | unknown
  | registered
  | running
  | updating
  | error
deriving DecidableEq

/-- Modelled from the spec: the `UpdateModeEnum` enumeration imported from
`goosebit.models` (not under `src/`); §3 lists PINNED, LATEST, ASSIGNED,
ROLLOUT. -/
inductive UpdateModeEnum where
  | pinned
  | latest
  | assigned
  | rollout
deriving DecidableEq

/-- Modelled from the spec §3: a Hardware class is a `(model, revision)` pair. -/
structure Hardware where
  model : String
  revision : String
deriving DecidableEq

/-- Modelled from the spec §3: a Firmware carries a `version` string; its
compatibility relation is abstracted into the environment (`Env.latest`). -/
structure Firmware where
  version : String
deriving DecidableEq

/-- Modelled from the spec §3: a Rollout references one Firmware and carries a
`paused` flag.  The "most recently created rollout matching the device" query
is abstracted into the environment (`Env.rollout_of`). -/
structure Rollout where
  paused : Bool
  firmware : Firmware
deriving DecidableEq

/-- Modelled from the spec §3: the Device record, with exactly the fields the
embedded methods of `manager.py` read or write.  `progress` and `last_log`
are nullable (the source guards `device.last_log is None`). -/
structure Device where
  uuid : String
  hardware : Hardware
  fw_version : String
  last_state : UpdateStateEnum
  update_mode : UpdateModeEnum
  assigned_firmware : Option Firmware
  force_update : Bool
  progress : Option Nat
  last_log : Option String
  log_complete : Bool
deriving DecidableEq

/-- Modelled from the spec: `goosebit.settings.POLL_TIME` (not under `src/`),
the configured idle poll interval, a time-of-day string (§6). -/
def POLL_TIME : String := "00:01:00"

/-- Modelled from the spec: `goosebit.settings.POLL_TIME_UPDATING` (not under
`src/`), the configured faster "updating" poll interval (§6). -/
def POLL_TIME_UPDATING : String := "00:00:05"

/-! ### Association-list primitives

The Python module keeps several `dict[str, ...]` tables plus the aiocache
in-memory namespace; all are embedded as association lists over `String`. -/

/-- Lookup in an association list (`dict.get(k)` / cache `get`). -/
def alGet {α : Type} : List (String × α) → String → Option α
  | [], _ => none
  | (k', v) :: rest, k => if k' = k then some v else alGet rest k

/-- Update/insert in an association list (`d[k] = v` / cache `set`). -/
def alSet {α : Type} : List (String × α) → String → α → List (String × α)
  | [], k, v => [(k, v)]
  | (k', v') :: rest, k, v =>
    if k' = k then (k, v) :: rest else (k', v') :: alSet rest k v

/-- Deletion from an association list (`del d[k]` / cache `delete`). -/
def alDel {α : Type} : List (String × α) → String → List (String × α)
  | [], _ => []
  | (k', v') :: rest, k =>
    if k' = k then alDel rest k else (k', v') :: alDel rest k

/-! ### Log-line scanning

`re.findall(r"Downloaded (\d+)%", log_data)` (manager.py line 293) and
`log_data.startswith(...)` are embedded as explicit scanners over `List Char`. -/

/-- Match a literal character pattern at the head of a string; on success
return the remainder.  Embeds matching of a literal regex fragment. -/
def charsMatch : List Char → List Char → Option (List Char)
  | [], l => some l
  | _ :: _, [] => none
  | p :: ps, c :: cs => if p = c then charsMatch ps cs else none

/-- Split off the maximal leading digit run (the greedy `\d+`). -/
def takeDigits : List Char → List Char × List Char
  | [] => ([], [])
  | c :: cs =>
    if c.isDigit then
      let r := takeDigits cs
      (c :: r.1, r.2)
    else ([], c :: cs)

/-- Numeric value of a digit run (how `int()` would read the captured group;
the source stores the raw capture, which the integer `progress` column holds
as this value). -/
def natOfDigits (l : List Char) : Nat :=
  l.foldl (fun a c => a * 10 + (c.toNat - 48)) 0

/-- Try to match `Downloaded (\d+)%` at the current position; on success
return the captured value and the remainder after the match. -/
def matchDownload (l : List Char) : Option (Nat × List Char) :=
  match charsMatch "Downloaded ".data l with
  | none => none
  | some r =>
    match takeDigits r with
    | ([], _) => none
    | (d :: ds, r') =>
      match r' with
      | '%' :: r'' => some (natOfDigits (d :: ds), r'')
      | _ => none

/-- Left-to-right non-overlapping scan, bounded by a fuel argument: each step
either consumes a whole match or advances one character, exactly as
`re.findall` does. -/
def findDownloadedAux : Nat → List Char → List Nat
  | 0, _ => []
  | _, [] => []
  | fuel + 1, c :: rest =>
    match matchDownload (c :: rest) with
    | some (n, r) => n :: findDownloadedAux fuel r
    | none => findDownloadedAux fuel rest

/-- All captures of `re.findall(r"Downloaded (\d+)%", l)` in order.  A fuel of
`l.length` suffices because every step consumes at least one character. -/
def findDownloaded (l : List Char) : List Nat :=
  findDownloadedAux l.length l

/-- Embedding of Python `s.startswith(p)` as a scan over the characters. -/
def listStarts : List Char → List Char → Bool
  | [], _ => true
  | _ :: _, [] => false
  | p :: ps, c :: cs => p = c && listStarts ps cs

/-! ### Poll-time strings

`datetime.strptime(value, "%H:%M:%S")` (manager.py line 90) is embedded as an
explicit parser: three colon-separated fields of one or two digits, hour in
0..23, minute in 0..59, second in 0..61 (the `strptime` ranges); an invalid
string parses to `none` (where `strptime` would raise). -/

/-- Split a character list on a separator character. -/
def splitCh (sep : Char) : List Char → List (List Char)
  | [] => [[]]
  | c :: cs =>
    let r := splitCh sep cs
    if c = sep then [] :: r
    else
      match r with
      | [] => [[c]]
      | g :: gs => (c :: g) :: gs

/-- Parse one `strptime` numeric field: one or two digits, value at most `hi`. -/
def parseField (hi : Nat) (l : List Char) : Option Nat :=
  if l ≠ [] ∧ l.length ≤ 2 ∧ l.all Char.isDigit ∧ natOfDigits l ≤ hi then
    some (natOfDigits l)
  else none

/-- Embedding of `datetime.strptime(str, "%H:%M:%S")`, returning the
`(hour, minute, second)` triple. -/
def parseHMS (str : String) : Option (Nat × Nat × Nat) :=
  match splitCh ':' str.data with
  | [hs, ms, ss] =>
    match parseField 23 hs, parseField 59 ms, parseField 61 ss with
    | some h, some m, some sec => some (h, m, sec)
    | _, _, _ => none
  | _ => none

/-! ### Manager state

One record collects everything `manager.py` mutates: the aiocache `"main"`
namespace (device plus TTL per key), the persisted device rows, the two
class-level dictionaries `device_log_subscriptions` and `device_poll_time`,
the trace of payloads delivered to subscriber callbacks (callbacks are
identified by `Nat` ids), and the telemetry `devices_count` gauge. -/

structure MState where
  cache : List (String × (Device × Nat))
  db : List (String × Device)
  subs : List (String × List Nat)
  pollTable : List (String × String)
  events : List (Nat × Option String)
  gauge : Option Nat
deriving DecidableEq

/-- The read side of the external store that `_get_firmware` consults:
`Rollout.filter(...).order_by("-created_at").first()` keyed by the device
uuid, and `Firmware.latest(device)` (with `none` for the unknown manager,
whose `get_device` returns `None`). -/
structure Env where
  rollout_of : String → Option Rollout
  latest : Option Device → Option Firmware

/-- Subscriber list for a device: the getter `log_subscribers`
(manager.py lines 93-95), `dict.get(dev_id, [])`. -/
def subsOf (s : MState) (dev_id : String) : List Nat :=
  (alGet s.subs dev_id).getD []

/-- Modelled from the spec: defaults of a freshly created Device row
(`Device.get_or_create(uuid=dev_id, defaults={"hardware": hardware})`, with
the remaining column defaults owned by `goosebit.models`, not under `src/`):
unregistered state, no firmware reported, empty log. -/
def defaultDevice (dev_id : String) : Device :=
  { uuid := dev_id
    hardware := { model := "default", revision := "default" }
    fw_version := ""
    last_state := UpdateStateEnum.unknown
    update_mode := UpdateModeEnum.rollout
    assigned_firmware := none
    force_update := false
    progress := none
    last_log := none
    log_complete := false }

/-- Embedding of `DeviceUpdateManager.get_device` (manager.py lines 143-156)
together with its `@cached(ttl=600, ...)` decorator: a cache hit returns the
cached device unchanged; a miss runs `Device.get_or_create` against the
persisted rows and stores the result in the cache with TTL 600. -/
def get_device (dev_id : String) (s : MState) : Device × MState :=
  match alGet s.cache dev_id with
  | some dt => (dt.1, s)
  | none =>
    match alGet s.db dev_id with
    | some d => (d, { s with cache := alSet s.cache dev_id (d, 600) })
    | none =>
      let d := defaultDevice dev_id
      (d, { s with cache := alSet s.cache dev_id (d, 600)
                   db := alSet s.db dev_id d })

/-- Copy one named column from `src` onto `dst`: the effect of listing the
field in `update_fields` of `device.save`. -/
def applyField (f : String) (src dst : Device) : Device :=
  if f = "fw_version" then { dst with fw_version := src.fw_version }
  else if f = "last_state" then { dst with last_state := src.last_state }
  else if f = "update_mode" then { dst with update_mode := src.update_mode }
  else if f = "assigned_firmware_id" then
    { dst with assigned_firmware := src.assigned_firmware }
  else if f = "hardware_id" then { dst with hardware := src.hardware }
  else if f = "force_update" then { dst with force_update := src.force_update }
  else if f = "progress" then { dst with progress := src.progress }
  else if f = "last_log" then { dst with last_log := src.last_log }
  else if f = "log_complete" then { dst with log_complete := src.log_complete }
  else dst

/-- Embedding of `DeviceUpdateManager.save_device` (manager.py lines 158-161):
first the write-through `cache.set(dev_id, device, ttl=600)`, then
`device.save(update_fields=...)`, which updates only the listed columns of the
persisted row. -/
def save_device (dev_id : String) (device : Device) (fields : List String)
    (s : MState) : MState :=
  let s1 := { s with cache := alSet s.cache dev_id (device, 600) }
  { s1 with db :=
      match alGet s1.db dev_id with
      | some old =>
        alSet s1.db dev_id (fields.foldl (fun acc f => applyField f device acc) old)
      | none => alSet s1.db dev_id device }

/-- Embedding of `UpdateManager.publish_log` (manager.py lines 113-115):
deliver the payload to every subscribed callback in list order. -/
def publish_log (dev_id : String) (payload : Option String) (s : MState) :
    MState :=
  { s with events := s.events ++ (subsOf s dev_id).map (fun cb => (cb, payload)) }

/-- Embedding of `DeviceUpdateManager.update_log_complete`
(manager.py lines 222-225). -/
def update_log_complete (dev_id : String) (b : Bool) (s : MState) : MState :=
  let r := get_device dev_id s
  save_device dev_id { r.1 with log_complete := b } ["log_complete"] r.2

/-- Embedding of `DeviceUpdateManager.clear_log` (manager.py lines 311-315):
reset the buffer, persist `last_log`, broadcast `None`. -/
def clear_log (dev_id : String) (s : MState) : MState :=
  let r := get_device dev_id s
  let s1 := save_device dev_id { r.1 with last_log := some "" } ["last_log"] r.2
  publish_log dev_id none s1

/-- Embedding of the `poll_time` property getter (manager.py lines 101-103):
`device_poll_time.get(dev_id, POLL_TIME)`. -/
def poll_time (dev_id : String) (s : MState) : String :=
  (alGet s.pollTable dev_id).getD POLL_TIME

/-- Embedding of the `poll_time` property setter (manager.py lines 105-111):
a non-default value is stored; the default value deletes the entry if present. -/
def set_poll_time (dev_id value : String) (s : MState) : MState :=
  if ¬ value = POLL_TIME then
    { s with pollTable := alSet s.pollTable dev_id value }
  else if (alGet s.pollTable dev_id).isSome then
    { s with pollTable := alDel s.pollTable dev_id }
  else s

/-- Embedding of the `poll_seconds` property (manager.py lines 88-91):
parse the current poll time and return `hour*3600 + minute*60 + second`;
`none` where `strptime` would raise. -/
def poll_seconds (dev_id : String) (s : MState) : Option Nat :=
  (parseHMS (poll_time dev_id s)).map (fun t => t.1 * 3600 + t.2.1 * 60 + t.2.2)

/-- Embedding of `DeviceUpdateManager.get_rollout` / the rollout arm of
`_get_firmware` (manager.py lines 227-257): a pure function of the device and
the store, as §4.4 states. -/
def resolve_firmware (env : Env) (device : Device) : Option Firmware :=
  match device.update_mode with
  | UpdateModeEnum.rollout =>
    match env.rollout_of device.uuid with
    | none => none
    | some r => if r.paused then none else some r.firmware
  | UpdateModeEnum.assigned => device.assigned_firmware
  | UpdateModeEnum.latest => env.latest (some device)
  | UpdateModeEnum.pinned => none

/-- Embedding of `DeviceUpdateManager.get_update` (manager.py lines 259-283):
the four-way decision chain, the cadence side effect, and the log clearing in
the forced case. -/
def get_update (dev_id : String) (env : Env) (s : MState) :
    (HandlingType × Option Firmware) × MState :=
  let r := get_device dev_id s
  let device := r.1
  let s1 := r.2
  match resolve_firmware env device with
  | none => ((HandlingType.skip, none), set_poll_time dev_id POLL_TIME s1)
  | some fw =>
    if fw.version = device.fw_version ∧ device.force_update = false then
      ((HandlingType.skip, some fw), set_poll_time dev_id POLL_TIME s1)
    else if device.last_state = UpdateStateEnum.error ∧ device.force_update = false then
      ((HandlingType.skip, some fw), set_poll_time dev_id POLL_TIME s1)
    else
      let s2 := set_poll_time dev_id POLL_TIME_UPDATING s1
      let s3 :=
        if device.log_complete then
          clear_log dev_id (update_log_complete dev_id false s2)
        else s2
      ((HandlingType.forced, some fw), s3)

/-- Embedding of `DeviceUpdateManager.update_log` (manager.py lines 285-309).
The argument is `Option String` so that the `log_data is None` guard is
expressible. -/
def update_log (dev_id : String) (log_data : Option String) (s : MState) :
    MState :=
  match log_data with
  | none => s
  | some line =>
    let r := get_device dev_id s
    let d0 := r.1
    let s1 := r.2
    let d1 := match d0.last_log with
      | none => { d0 with last_log := some "" }
      | some _ => d0
    let d2 := match (findDownloaded line.data).getLast? with
      | some n => { d1 with progress := some n }
      | none => d1
    let ir :=
      if listStarts "Installing Update Chunk Artifacts.".data line.data then
        ({ d2 with last_log := some "" }, publish_log dev_id none s1)
      else (d2, s1)
    let ar :=
      if line = "Skipped Update." then ir
      else ({ ir.1 with last_log := some ((ir.1.last_log).getD "" ++ line ++ "\n") },
            publish_log dev_id (some (line ++ "\n")) ir.2)
    save_device dev_id ar.1 ["progress", "last_log"] ar.2

/-! ### Subscription scope

`UpdateManager.subscribe_log` (manager.py lines 72-86) is an async context
manager: register and deliver the current buffer on entry; on exit — normal
return, cancellation (absorbed by `except asyncio.CancelledError: pass`), or
any other exception — the `finally` block unregisters the callback. -/

/-- How the body of the subscription scope terminates. -/
inductive ExitReason where
  | normal
  | cancelled
  | failure : String → ExitReason
deriving DecidableEq

/-- Entry half of `subscribe_log`: fetch the device, append the callback to
the shared subscriber list, deliver the current buffer to it. -/
def subscribe_enter (dev_id : String) (cb : Nat) (s : MState) : MState :=
  let r := get_device dev_id s
  let s1 := { r.2 with subs := alSet r.2.subs dev_id (subsOf r.2 dev_id ++ [cb]) }
  { s1 with events := s1.events ++ [(cb, r.1.last_log)] }

/-- Exit half of `subscribe_log`: the `finally` block,
`subscribers.remove(callback)` (removes the first occurrence). -/
def subscribe_exit (dev_id : String) (cb : Nat) (s : MState) : MState :=
  { s with subs := alSet s.subs dev_id ((subsOf s dev_id).erase cb) }

/-- The whole scope: enter, run the body (its state effects abstracted as a
function), terminate with `reason`, absorb cancellation, always run the
`finally`.  The first component is the exception that propagates out. -/
def subscribe_scope (dev_id : String) (cb : Nat) (reason : ExitReason)
    (body : MState → MState) (s : MState) : Option ExitReason × MState :=
  let s1 := subscribe_enter dev_id cb s
  let s2 := body s1
  let propagated : Option ExitReason :=
    match reason with
    | ExitReason.normal => none
    | ExitReason.cancelled => none
    | ExitReason.failure e => some (ExitReason.failure e)
  (propagated, subscribe_exit dev_id cb s2)

/-! ### Manager selection and the unknown-device policy -/

/-- Which policy class `get_update_manager` instantiates. -/
inductive ManagerKind where
  | unknownManager
  | deviceManager
deriving DecidableEq

/-- Embedding of `get_update_manager` (manager.py lines 318-323).  The unknown
branch runs `UnknownUpdateManager.__init__`, whose `self.poll_time =
POLL_TIME_UPDATING` writes the poll table; the registered branch sets the
`devices_count` gauge to `Device.all().count()`. -/
def get_update_manager (dev_id : String) (s : MState) : ManagerKind × MState :=
  if dev_id = "unknown" then
    (ManagerKind.unknownManager, set_poll_time "unknown" POLL_TIME_UPDATING s)
  else
    (ManagerKind.deviceManager, { s with gauge := some s.db.length })

/-- Embedding of `UnknownUpdateManager.get_update` (manager.py lines 132-134):
`Firmware.latest` applied to the base-class `get_device`, which returns
`None`, hence the hardware-agnostic latest firmware; always FORCED. -/
def unknown_get_update (env : Env) : HandlingType × Option Firmware :=
  (HandlingType.forced, env.latest none)

/-- Embedding of `UnknownUpdateManager.update_log` (manager.py lines 136-137):
a no-op. -/
def unknown_update_log (_log_data : Option String) (s : MState) : MState :=
  s

/-- Embedding of `delete_devices` (manager.py lines 326-330): delete the rows
and evict each cache entry. -/
def delete_devices (ids : List String) (s : MState) : MState :=
  let s1 := { s with db := ids.foldl (fun acc i => alDel acc i) s.db }
  { s1 with cache := ids.foldl (fun acc i => alDel acc i) s1.cache }

/-! ### Concrete fixtures used to instantiate the theorems -/

/-- A concrete firmware value. -/
def fwW : Firmware := { version := "2.0" }

/-- A concrete store environment: no rollouts; the latest compatible firmware
is `fwW` for every hardware class. -/
def envW : Env := { rollout_of := fun _ => none, latest := fun _ => some fwW }

/-- A registered device in LATEST mode, one version behind `fwW`, whose
previous update log was marked complete. -/
def devW : Device :=
  { defaultDevice "d" with
      update_mode := UpdateModeEnum.latest
      fw_version := "1.0"
      last_state := UpdateStateEnum.running
      last_log := some "old\n"
      log_complete := true }

/-- A concrete manager state: `devW` cached and persisted, one subscriber. -/
def stW : MState :=
  { cache := [("d", (devW, 600))]
    db := [("d", devW)]
    subs := [("d", [7])]
    pollTable := []
    events := []
    gauge := none }

/-- A concrete manager state holding a freshly created device whose log
buffer is still null. -/
def stNullLog : MState :=
  { cache := [("d", (defaultDevice "d", 600))]
    db := [("d", defaultDevice "d")]
    subs := [("d", [7])]
    pollTable := []
    events := []
    gauge := none }

/-! ### Association-list lemmas -/

theorem alGet_alSet_self {α : Type} (m : List (String × α)) (k : String) (v : α) :
    alGet (alSet m k v) k = some v := by
  induction m with
  | nil => simp [alSet, alGet]
  | cons p rest ih =>
    obtain ⟨k', v'⟩ := p
    by_cases h : k' = k
    · simp [alSet, alGet, h]
    · simp [alSet, alGet, h, ih]

theorem alSet_alSet_self {α : Type} (m : List (String × α)) (k : String) (v w : α) :
    alSet (alSet m k v) k w = alSet m k w := by
  induction m with
  | nil => simp [alSet]
  | cons p rest ih =>
    obtain ⟨k', v'⟩ := p
    by_cases h : k' = k <;> simp [alSet, h, ih]

theorem alSet_eq_of_alGet {α : Type} {m : List (String × α)} {k : String} {v : α}
    (h : alGet m k = some v) : alSet m k v = m := by
  induction m with
  | nil => simp [alGet] at h
  | cons p rest ih =>
    obtain ⟨k', v'⟩ := p
    by_cases hk : k' = k
    · simp [alGet, hk] at h
      simp [alSet, hk, h]
    · simp [alGet, hk] at h
      simp [alSet, hk, ih h]

theorem alGet_alDel_self {α : Type} (m : List (String × α)) (k : String) :
    alGet (alDel m k) k = none := by
  induction m with
  | nil => simp [alDel, alGet]
  | cons p rest ih =>
    obtain ⟨k', v'⟩ := p
    by_cases h : k' = k <;> simp [alDel, alGet, h, ih]

/-! ### Frame lemmas: which state components each operation leaves alone -/

theorem get_device_subs (dev : String) (s : MState) :
    (get_device dev s).2.subs = s.subs := by
  unfold get_device
  split
  · rfl
  · split <;> rfl

theorem get_device_events (dev : String) (s : MState) :
    (get_device dev s).2.events = s.events := by
  unfold get_device
  split
  · rfl
  · split <;> rfl

theorem get_device_pollTable (dev : String) (s : MState) :
    (get_device dev s).2.pollTable = s.pollTable := by
  unfold get_device
  split
  · rfl
  · split <;> rfl

theorem get_device_cache_get (dev : String) (s : MState) :
    ∃ t, alGet (get_device dev s).2.cache dev = some ((get_device dev s).1, t) := by
  unfold get_device
  cases h : alGet s.cache dev with
  | some dt => exact ⟨dt.2, by simp [h]⟩
  | none =>
    cases h2 : alGet s.db dev with
    | some d => exact ⟨600, by simp [alGet_alSet_self]⟩
    | none => exact ⟨600, by simp [alGet_alSet_self]⟩

theorem get_device_hit {dev : String} {s : MState} {d : Device} {t : Nat}
    (h : alGet s.cache dev = some (d, t)) : get_device dev s = (d, s) := by
  unfold get_device
  rw [h]

theorem save_device_subs (dev : String) (d : Device) (fs : List String) (s : MState) :
    (save_device dev d fs s).subs = s.subs := rfl

theorem save_device_events (dev : String) (d : Device) (fs : List String) (s : MState) :
    (save_device dev d fs s).events = s.events := rfl

theorem save_device_pollTable (dev : String) (d : Device) (fs : List String) (s : MState) :
    (save_device dev d fs s).pollTable = s.pollTable := rfl

theorem save_device_cache (dev : String) (d : Device) (fs : List String) (s : MState) :
    alGet (save_device dev d fs s).cache dev = some (d, 600) :=
  alGet_alSet_self s.cache dev (d, 600)

theorem get_device_save (dev : String) (d : Device) (fs : List String) (s : MState) :
    get_device dev (save_device dev d fs s) = (d, save_device dev d fs s) :=
  get_device_hit (save_device_cache dev d fs s)

theorem publish_log_subs (dev : String) (p : Option String) (s : MState) :
    (publish_log dev p s).subs = s.subs := rfl

theorem publish_log_cache (dev : String) (p : Option String) (s : MState) :
    (publish_log dev p s).cache = s.cache := rfl

theorem publish_log_pollTable (dev : String) (p : Option String) (s : MState) :
    (publish_log dev p s).pollTable = s.pollTable := rfl

theorem set_poll_time_cache (dev v : String) (s : MState) :
    (set_poll_time dev v s).cache = s.cache := by
  unfold set_poll_time
  split
  · rfl
  · split <;> rfl

theorem set_poll_time_db (dev v : String) (s : MState) :
    (set_poll_time dev v s).db = s.db := by
  unfold set_poll_time
  split
  · rfl
  · split <;> rfl

theorem set_poll_time_subs (dev v : String) (s : MState) :
    (set_poll_time dev v s).subs = s.subs := by
  unfold set_poll_time
  split
  · rfl
  · split <;> rfl

theorem set_poll_time_events (dev v : String) (s : MState) :
    (set_poll_time dev v s).events = s.events := by
  unfold set_poll_time
  split
  · rfl
  · split <;> rfl

theorem get_device_gauge (dev : String) (s : MState) :
    (get_device dev s).2.gauge = s.gauge := by
  unfold get_device
  split
  · rfl
  · split <;> rfl

theorem save_device_gauge (dev : String) (d : Device) (fs : List String) (s : MState) :
    (save_device dev d fs s).gauge = s.gauge := rfl

theorem save_device_cache_eq (dev : String) (d : Device) (fs : List String) (s : MState) :
    (save_device dev d fs s).cache = alSet s.cache dev (d, 600) := rfl

theorem save_device_db_eq (dev : String) (d : Device) (fs : List String) (s : MState) :
    (save_device dev d fs s).db =
      match alGet s.db dev with
      | some old => alSet s.db dev (fs.foldl (fun acc f => applyField f d acc) old)
      | none => alSet s.db dev d := rfl

theorem publish_log_db (dev : String) (p : Option String) (s : MState) :
    (publish_log dev p s).db = s.db := rfl

theorem publish_log_gauge (dev : String) (p : Option String) (s : MState) :
    (publish_log dev p s).gauge = s.gauge := rfl

theorem publish_log_events_eq (dev : String) (p : Option String) (s : MState) :
    (publish_log dev p s).events =
      s.events ++ (subsOf s dev).map (fun cb => (cb, p)) := rfl

theorem set_poll_time_gauge (dev v : String) (s : MState) :
    (set_poll_time dev v s).gauge = s.gauge := by
  unfold set_poll_time
  split
  · rfl
  · split <;> rfl

theorem subsOf_congr {s s' : MState} (h : s.subs = s'.subs) (dev : String) :
    subsOf s dev = subsOf s' dev := by
  simp [subsOf, h]

theorem poll_time_congr {s s' : MState} (h : s.pollTable = s'.pollTable)
    (dev : String) : poll_time dev s = poll_time dev s' := by
  simp [poll_time, h]

theorem applyField_last_log (src dst : Device) :
    applyField "last_log" src dst = { dst with last_log := src.last_log } := rfl

theorem applyField_log_complete (src dst : Device) :
    applyField "log_complete" src dst =
      { dst with log_complete := src.log_complete } := rfl

theorem applyField_progress (src dst : Device) :
    applyField "progress" src dst = { dst with progress := src.progress } := rfl

theorem device_update_last_log_self {d : Device} {v : Option String}
    (h : d.last_log = v) : { d with last_log := v } = d := by
  cases d
  cases h
  rfl

theorem save_device_db_get (dev : String) (d : Device) (s : MState) :
    ∃ row, alGet (save_device dev d ["last_log"] s).db dev = some row ∧
      row.last_log = d.last_log := by
  rw [save_device_db_eq]
  cases h : alGet s.db dev with
  | some old =>
    refine ⟨_, alGet_alSet_self _ _ _, ?_⟩
    simp [applyField_last_log]
  | none => exact ⟨d, alGet_alSet_self _ _ _, rfl⟩

theorem poll_time_set (dev v : String) (s : MState) :
    poll_time dev (set_poll_time dev v s) = v := by
  unfold set_poll_time poll_time
  by_cases h : v = POLL_TIME
  · simp only [h, not_true_eq_false, if_false, ite_not]
    by_cases h2 : (alGet s.pollTable dev).isSome
    · simp [h2, alGet_alDel_self]
    · cases h3 : alGet s.pollTable dev with
      | none => simp [h3]
      | some w => simp [h3] at h2
  · simp [h, alGet_alSet_self]

theorem forced_cleanup (dev : String) (s1 : MState) (d : Device) (t : Nat)
    (h : alGet s1.cache dev = some (d, t)) :
    (get_device dev (clear_log dev (update_log_complete dev false s1))).1 =
      { d with log_complete := false, last_log := some "" } ∧
    (clear_log dev (update_log_complete dev false s1)).events =
      s1.events ++ (subsOf s1 dev).map (fun cb => (cb, (none : Option String))) ∧
    (clear_log dev (update_log_complete dev false s1)).pollTable = s1.pollTable ∧
    (clear_log dev (update_log_complete dev false s1)).subs = s1.subs ∧
    (clear_log dev (update_log_complete dev false s1)).gauge = s1.gauge := by
  have h1 : update_log_complete dev false s1 =
      save_device dev { d with log_complete := false } ["log_complete"] s1 := by
    unfold update_log_complete
    rw [get_device_hit h]
  have h2 : clear_log dev (save_device dev { d with log_complete := false }
        ["log_complete"] s1) =
      publish_log dev none
        (save_device dev { d with log_complete := false, last_log := some "" }
          ["last_log"]
          (save_device dev { d with log_complete := false } ["log_complete"] s1)) := by
    show publish_log dev none
        (save_device dev
          { (get_device dev (save_device dev { d with log_complete := false }
              ["log_complete"] s1)).1 with last_log := some "" }
          ["last_log"]
          (get_device dev (save_device dev { d with log_complete := false }
            ["log_complete"] s1)).2) = _
    rw [get_device_save]
  rw [h1, h2]
  have hcache : alGet (publish_log dev none
      (save_device dev { d with log_complete := false, last_log := some "" }
        ["last_log"]
        (save_device dev { d with log_complete := false } ["log_complete"] s1))).cache
        dev =
      some ({ d with log_complete := false, last_log := some "" }, 600) := by
    rw [publish_log_cache]
    exact save_device_cache _ _ _ _
  refine ⟨?_, ?_, ?_, ?_, ?_⟩
  · rw [get_device_hit hcache]
  · rw [publish_log_events_eq, save_device_events, save_device_events]
    have h9 : subsOf (save_device dev
        { d with log_complete := false, last_log := some "" } ["last_log"]
        (save_device dev { d with log_complete := false } ["log_complete"] s1)) dev =
        subsOf s1 dev := by
      unfold subsOf
      rw [save_device_subs, save_device_subs]
    rw [h9]
  · rw [publish_log_pollTable, save_device_pollTable, save_device_pollTable]
  · rw [publish_log_subs, save_device_subs, save_device_subs]
  · rw [publish_log_gauge, save_device_gauge, save_device_gauge]

theorem get_update_of_none {dev : String} {env : Env} {s : MState}
    (h : resolve_firmware env (get_device dev s).1 = none) :
    get_update dev env s =
      ((HandlingType.skip, none),
        set_poll_time dev POLL_TIME (get_device dev s).2) := by
  simp only [get_update, h]

theorem get_update_of_skip_version {dev : String} {env : Env} {s : MState}
    {f : Firmware} (hf : resolve_firmware env (get_device dev s).1 = some f)
    (h2 : f.version = (get_device dev s).1.fw_version ∧
      (get_device dev s).1.force_update = false) :
    get_update dev env s =
      ((HandlingType.skip, some f),
        set_poll_time dev POLL_TIME (get_device dev s).2) := by
  simp only [get_update, hf]
  rw [if_pos h2]

theorem get_update_of_skip_error {dev : String} {env : Env} {s : MState}
    {f : Firmware} (hf : resolve_firmware env (get_device dev s).1 = some f)
    (h2 : ¬ (f.version = (get_device dev s).1.fw_version ∧
      (get_device dev s).1.force_update = false))
    (h3 : (get_device dev s).1.last_state = UpdateStateEnum.error ∧
      (get_device dev s).1.force_update = false) :
    get_update dev env s =
      ((HandlingType.skip, some f),
        set_poll_time dev POLL_TIME (get_device dev s).2) := by
  simp only [get_update, hf]
  rw [if_neg h2, if_pos h3]

theorem get_update_of_forced {dev : String} {env : Env} {s : MState}
    {f : Firmware} (hf : resolve_firmware env (get_device dev s).1 = some f)
    (h2 : ¬ (f.version = (get_device dev s).1.fw_version ∧
      (get_device dev s).1.force_update = false))
    (h3 : ¬ ((get_device dev s).1.last_state = UpdateStateEnum.error ∧
      (get_device dev s).1.force_update = false)) :
    get_update dev env s =
      ((HandlingType.forced, some f),
        if (get_device dev s).1.log_complete then
          clear_log dev (update_log_complete dev false
            (set_poll_time dev POLL_TIME_UPDATING (get_device dev s).2))
        else set_poll_time dev POLL_TIME_UPDATING (get_device dev s).2) := by
  simp only [get_update, hf]
  rw [if_neg h2, if_neg h3]

theorem subsOf_publish (dev dev' : String) (p : Option String) (s : MState) :
    subsOf (publish_log dev' p s) dev = subsOf s dev := rfl

theorem string_nil_append (str : String) : "" ++ str = str := by
  cases str
  rfl

theorem list_erase_append_self {l : List Nat} {cb : Nat} (h : cb ∉ l) :
    (l ++ [cb]).erase cb = l := by
  rw [List.erase_append_right _ h]
  simp [List.erase_cons]

/-! ### Claim theorems -/

/-- **C5**: within one process, a `get_device` read immediately after
`save_device` returns the saved device value, never a stale pre-save value:
the save writes the new value through to the cache entry, with the same
600-unit TTL, before persisting. -/
theorem save_device_write_through (dev_id : String) (d : Device)
    (fields : List String) (s : MState) :
    alGet (save_device dev_id d fields s).cache dev_id = some (d, 600) ∧
    get_device dev_id (save_device dev_id d fields s) =
      (d, save_device dev_id d fields s) :=
  ⟨save_device_cache dev_id d fields s, get_device_save dev_id d fields s⟩

/-- **C9**: `poll_seconds` equals `hours*3600 + minutes*60 + seconds` of the
device's current `"HH:MM:SS"` interval string; setting a device's interval to
the idle default removes its side-table entry; reading the interval of a
device with no side-table entry yields the idle default. -/
theorem poll_interval_spec (dev_id : String) (s : MState) (h m sec : Nat) :
    (parseHMS (poll_time dev_id s) = some (h, m, sec) →
      poll_seconds dev_id s = some (h * 3600 + m * 60 + sec)) ∧
    alGet (set_poll_time dev_id POLL_TIME s).pollTable dev_id = none ∧
    (alGet s.pollTable dev_id = none → poll_time dev_id s = POLL_TIME) := by
  refine ⟨?_, ?_, ?_⟩
  · intro hp
    simp [poll_seconds, hp]
  · unfold set_poll_time
    rw [if_neg (by simp)]
    by_cases h2 : (alGet s.pollTable dev_id).isSome
    · rw [if_pos h2]
      exact alGet_alDel_self s.pollTable dev_id
    · rw [if_neg h2]
      cases h3 : alGet s.pollTable dev_id with
      | none => rfl
      | some w => simp [h3] at h2
  · intro hn
    simp [poll_time, hn]

/-- Witness for `poll_interval_spec` at the concrete state `stW`. -/
theorem poll_interval_spec_witness :
    parseHMS (poll_time "d" stW) = some (0, 1, 0) ∧
    poll_seconds "d" stW = some 60 ∧
    alGet stW.pollTable "d" = none ∧
    poll_time "d" stW = POLL_TIME := by
  have h := poll_interval_spec "d" stW 0 1 0
  exact ⟨by decide, h.1 (by decide), by decide, h.2.2 (by decide)⟩

/-- **C7**: `get_update_manager` returns the unknown-device policy exactly for
the sentinel identity `"unknown"` (otherwise the registered policy, reporting
the device count to the telemetry gauge); the degenerate policy polls at the
updating cadence, its `get_update` always returns FORCED with the globally
latest firmware, and its `update_log` is a no-op. -/
theorem manager_selection_spec (dev_id : String) (env : Env) (s : MState) :
    ((get_update_manager dev_id s).1 = ManagerKind.unknownManager ↔
      dev_id = "unknown") ∧
    (¬ dev_id = "unknown" →
      (get_update_manager dev_id s).2.gauge = some s.db.length) ∧
    (dev_id = "unknown" →
      poll_time "unknown" (get_update_manager dev_id s).2 = POLL_TIME_UPDATING) ∧
    unknown_get_update env = (HandlingType.forced, env.latest none) ∧
    (∀ l s', unknown_update_log l s' = s') := by
  refine ⟨?_, ?_, ?_, rfl, fun l s' => rfl⟩
  · by_cases h : dev_id = "unknown" <;> simp [get_update_manager, h]
  · intro h
    simp [get_update_manager, h]
  · intro h
    subst h
    have he : get_update_manager "unknown" s =
        (ManagerKind.unknownManager, set_poll_time "unknown" POLL_TIME_UPDATING s) := by
      simp [get_update_manager]
    rw [he]
    exact poll_time_set "unknown" POLL_TIME_UPDATING s

/-- Witness for `manager_selection_spec` at concrete identities. -/
theorem manager_selection_spec_witness :
    (get_update_manager "unknown" stW).1 = ManagerKind.unknownManager ∧
    poll_time "unknown" (get_update_manager "unknown" stW).2 = POLL_TIME_UPDATING ∧
    (get_update_manager "d" stW).2.gauge = some 1 := by
  have h1 := manager_selection_spec "unknown" envW stW
  have h2 := manager_selection_spec "d" envW stW
  refine ⟨h1.1.mpr rfl, h1.2.2.1 rfl, ?_⟩
  rw [h2.2.1 (by decide)]
  rfl

/-- **C1**: `get_update` decides in strict order — no candidate firmware →
SKIP with idle cadence; version match without force → SKIP with idle cadence;
ERROR state without force → SKIP with idle cadence; otherwise FORCED with the
updating cadence (so `force_update` with a candidate present always yields
FORCED, even on a version match or in ERROR state), and in the FORCED case a
previously complete log is marked incomplete and cleared, with a null
broadcast to the subscribers, before returning. -/
theorem get_update_decision_order (dev_id : String) (env : Env) (s : MState) :
    (resolve_firmware env (get_device dev_id s).1 = none →
      (get_update dev_id env s).1 = (HandlingType.skip, none) ∧
      poll_time dev_id (get_update dev_id env s).2 = POLL_TIME) ∧
    (∀ f, resolve_firmware env (get_device dev_id s).1 = some f →
      f.version = (get_device dev_id s).1.fw_version →
      (get_device dev_id s).1.force_update = false →
      (get_update dev_id env s).1 = (HandlingType.skip, some f) ∧
      poll_time dev_id (get_update dev_id env s).2 = POLL_TIME) ∧
    (∀ f, resolve_firmware env (get_device dev_id s).1 = some f →
      ¬ f.version = (get_device dev_id s).1.fw_version →
      (get_device dev_id s).1.last_state = UpdateStateEnum.error →
      (get_device dev_id s).1.force_update = false →
      (get_update dev_id env s).1 = (HandlingType.skip, some f) ∧
      poll_time dev_id (get_update dev_id env s).2 = POLL_TIME) ∧
    (∀ f, resolve_firmware env (get_device dev_id s).1 = some f →
      (get_device dev_id s).1.force_update = true →
      (get_update dev_id env s).1 = (HandlingType.forced, some f) ∧
      poll_time dev_id (get_update dev_id env s).2 = POLL_TIME_UPDATING) ∧
    (∀ f, resolve_firmware env (get_device dev_id s).1 = some f →
      ¬ (f.version = (get_device dev_id s).1.fw_version ∧
          (get_device dev_id s).1.force_update = false) →
      ¬ ((get_device dev_id s).1.last_state = UpdateStateEnum.error ∧
          (get_device dev_id s).1.force_update = false) →
      (get_update dev_id env s).1 = (HandlingType.forced, some f) ∧
      poll_time dev_id (get_update dev_id env s).2 = POLL_TIME_UPDATING ∧
      ((get_device dev_id s).1.log_complete = true →
        (get_device dev_id (get_update dev_id env s).2).1.log_complete = false ∧
        (get_device dev_id (get_update dev_id env s).2).1.last_log = some "" ∧
        (get_update dev_id env s).2.events =
          s.events ++
            (subsOf s dev_id).map (fun cb => (cb, (none : Option String)))) ∧
      ((get_device dev_id s).1.log_complete = false →
        (get_update dev_id env s).2.events = s.events)) := by
  obtain ⟨t, ht⟩ := get_device_cache_get dev_id s
  have hs2cache : alGet
      (set_poll_time dev_id POLL_TIME_UPDATING (get_device dev_id s).2).cache
      dev_id = some ((get_device dev_id s).1, t) := by
    rw [set_poll_time_cache]
    exact ht
  have hs2events :
      (set_poll_time dev_id POLL_TIME_UPDATING (get_device dev_id s).2).events =
        s.events := by
    rw [set_poll_time_events, get_device_events]
  have hs2subs : subsOf
      (set_poll_time dev_id POLL_TIME_UPDATING (get_device dev_id s).2) dev_id =
      subsOf s dev_id := by
    unfold subsOf
    rw [set_poll_time_subs, get_device_subs]
  have fc := forced_cleanup dev_id
    (set_poll_time dev_id POLL_TIME_UPDATING (get_device dev_id s).2)
    (get_device dev_id s).1 t hs2cache
  have hforced : ∀ f, resolve_firmware env (get_device dev_id s).1 = some f →
      ¬ (f.version = (get_device dev_id s).1.fw_version ∧
          (get_device dev_id s).1.force_update = false) →
      ¬ ((get_device dev_id s).1.last_state = UpdateStateEnum.error ∧
          (get_device dev_id s).1.force_update = false) →
      (get_update dev_id env s).1 = (HandlingType.forced, some f) ∧
      poll_time dev_id (get_update dev_id env s).2 = POLL_TIME_UPDATING ∧
      ((get_device dev_id s).1.log_complete = true →
        (get_device dev_id (get_update dev_id env s).2).1.log_complete = false ∧
        (get_device dev_id (get_update dev_id env s).2).1.last_log = some "" ∧
        (get_update dev_id env s).2.events =
          s.events ++
            (subsOf s dev_id).map (fun cb => (cb, (none : Option String)))) ∧
      ((get_device dev_id s).1.log_complete = false →
        (get_update dev_id env s).2.events = s.events) := by
    intro f hf h2 h3
    rw [get_update_of_forced hf h2 h3]
    by_cases hlc : (get_device dev_id s).1.log_complete = true
    · rw [if_pos hlc]
      refine ⟨rfl, ?_, fun _ => ⟨?_, ?_, ?_⟩, fun hfalse => ?_⟩
      · rw [poll_time_congr fc.2.2.1 dev_id]
        exact poll_time_set dev_id POLL_TIME_UPDATING (get_device dev_id s).2
      · rw [fc.1]
      · rw [fc.1]
      · rw [fc.2.1, hs2events, hs2subs]
      · rw [hlc] at hfalse
        cases hfalse
    · rw [if_neg hlc]
      have hlcf : (get_device dev_id s).1.log_complete = false := by
        simpa using hlc
      refine ⟨rfl, ?_, fun htrue => ?_, fun _ => hs2events⟩
      · exact poll_time_set dev_id POLL_TIME_UPDATING (get_device dev_id s).2
      · rw [hlcf] at htrue
        cases htrue
  refine ⟨?_, ?_, ?_, ?_, hforced⟩
  · intro h
    rw [get_update_of_none h]
    exact ⟨rfl, poll_time_set dev_id POLL_TIME (get_device dev_id s).2⟩
  · intro f hf hv hforce
    rw [get_update_of_skip_version hf ⟨hv, hforce⟩]
    exact ⟨rfl, poll_time_set dev_id POLL_TIME (get_device dev_id s).2⟩
  · intro f hf hnv herr hforce
    rw [get_update_of_skip_error hf (fun hc => hnv hc.1) ⟨herr, hforce⟩]
    exact ⟨rfl, poll_time_set dev_id POLL_TIME (get_device dev_id s).2⟩
  · intro f hf hft
    have h2 : ¬ (f.version = (get_device dev_id s).1.fw_version ∧
        (get_device dev_id s).1.force_update = false) := by
      rintro ⟨-, hb⟩
      rw [hft] at hb
      cases hb
    have h3 : ¬ ((get_device dev_id s).1.last_state = UpdateStateEnum.error ∧
        (get_device dev_id s).1.force_update = false) := by
      rintro ⟨-, hb⟩
      rw [hft] at hb
      cases hb
    exact ⟨(hforced f hf h2 h3).1, (hforced f hf h2 h3).2.1⟩

/-- Witness for `get_update_decision_order` at the concrete state `stW`:
candidate `fwW` present, version mismatch, no forced flag, not in error,
previous log complete — the FORCED branch with log clearing fires. -/
theorem get_update_decision_order_witness :
    (get_update "d" envW stW).1 = (HandlingType.forced, some fwW) ∧
    poll_time "d" (get_update "d" envW stW).2 = POLL_TIME_UPDATING ∧
    (get_device "d" (get_update "d" envW stW).2).1.log_complete = false ∧
    (get_device "d" (get_update "d" envW stW).2).1.last_log = some "" ∧
    (get_update "d" envW stW).2.events = [(7, (none : Option String))] := by
  have h := (get_update_decision_order "d" envW stW).2.2.2.2 fwW
    (by decide) (by decide) (by decide)
  have h5 := h.2.2.1 (by decide)
  refine ⟨h.1, h.2.1, h5.1, h5.2.1, ?_⟩
  rw [h5.2.2]
  rfl

/-- **C8**: `clear_log` is idempotent — a second call yields exactly the same
cache, persisted rows, subscriber table, poll table and gauge as the first
(an empty, persisted buffer) — and each individual call performs exactly one
broadcast of a null payload to each subscriber. -/
theorem clear_log_idempotent (dev_id : String) (s : MState) :
    (clear_log dev_id (clear_log dev_id s)).cache = (clear_log dev_id s).cache ∧
    (clear_log dev_id (clear_log dev_id s)).db = (clear_log dev_id s).db ∧
    (clear_log dev_id (clear_log dev_id s)).subs = (clear_log dev_id s).subs ∧
    (clear_log dev_id (clear_log dev_id s)).pollTable =
      (clear_log dev_id s).pollTable ∧
    (clear_log dev_id (clear_log dev_id s)).gauge = (clear_log dev_id s).gauge ∧
    (get_device dev_id (clear_log dev_id s)).1.last_log = some "" ∧
    (∃ row, alGet (clear_log dev_id s).db dev_id = some row ∧
      row.last_log = some "") ∧
    (clear_log dev_id s).events =
      s.events ++ (subsOf s dev_id).map (fun cb => (cb, (none : Option String))) ∧
    (clear_log dev_id (clear_log dev_id s)).events =
      (clear_log dev_id s).events ++
        (subsOf s dev_id).map (fun cb => (cb, (none : Option String))) := by
  have hceq : clear_log dev_id s =
      publish_log dev_id none
        (save_device dev_id { (get_device dev_id s).1 with last_log := some "" }
          ["last_log"] (get_device dev_id s).2) := rfl
  have hcache1 : alGet (clear_log dev_id s).cache dev_id =
      some ({ (get_device dev_id s).1 with last_log := some "" }, 600) := by
    rw [hceq, publish_log_cache]
    exact save_device_cache _ _ _ _
  have hsubs1 : (clear_log dev_id s).subs = s.subs := by
    rw [hceq, publish_log_subs, save_device_subs, get_device_subs]
  obtain ⟨row, hrow, hrowlog⟩ :
      ∃ row, alGet (clear_log dev_id s).db dev_id = some row ∧
        row.last_log = some "" := by
    rw [hceq, publish_log_db]
    exact save_device_db_get _ _ _
  have hgd2 : get_device dev_id (clear_log dev_id s) =
      ({ (get_device dev_id s).1 with last_log := some "" }, clear_log dev_id s) :=
    get_device_hit hcache1
  have hceq2 : clear_log dev_id (clear_log dev_id s) =
      publish_log dev_id none
        (save_device dev_id { (get_device dev_id s).1 with last_log := some "" }
          ["last_log"] (clear_log dev_id s)) := by
    show publish_log dev_id none
        (save_device dev_id
          { (get_device dev_id (clear_log dev_id s)).1 with last_log := some "" }
          ["last_log"] (get_device dev_id (clear_log dev_id s)).2) = _
    rw [hgd2]
  have hsubs2 : subsOf (save_device dev_id
      { (get_device dev_id s).1 with last_log := some "" } ["last_log"]
        (get_device dev_id s).2) dev_id = subsOf s dev_id := by
    unfold subsOf
    rw [save_device_subs, get_device_subs]
  refine ⟨?_, ?_, ?_, ?_, ?_, ?_, ⟨row, hrow, hrowlog⟩, ?_, ?_⟩
  · rw [hceq2, publish_log_cache, save_device_cache_eq]
    exact alSet_eq_of_alGet hcache1
  · rw [hceq2, publish_log_db, save_device_db_eq, hrow]
    simp only [List.foldl_cons, List.foldl_nil, applyField_last_log]
    rw [device_update_last_log_self hrowlog]
    exact alSet_eq_of_alGet hrow
  · rw [hceq2, publish_log_subs, save_device_subs]
  · rw [hceq2, publish_log_pollTable, save_device_pollTable]
  · rw [hceq2, publish_log_gauge, save_device_gauge]
  · rw [hgd2]
  · rw [hceq, publish_log_events_eq, save_device_events, get_device_events, hsubs2]
  · rw [hceq2, publish_log_events_eq, save_device_events]
    have h9 : subsOf (save_device dev_id
        { (get_device dev_id s).1 with last_log := some "" } ["last_log"]
          (clear_log dev_id s)) dev_id = subsOf s dev_id := by
      unfold subsOf
      rw [save_device_subs, hsubs1]
    rw [h9]

/-- **C2**: `update_log` sets the device's progress to the numeric value of
the last occurrence of the pattern `Downloaded <N>%` in the line, and leaves
progress unchanged when the line has no occurrence. -/
theorem update_log_progress_spec (dev_id line : String) (s : MState) (n : Nat) :
    ((findDownloaded line.data).getLast? = some n →
      (get_device dev_id (update_log dev_id (some line) s)).1.progress = some n) ∧
    (findDownloaded line.data = [] →
      (get_device dev_id (update_log dev_id (some line) s)).1.progress =
        (get_device dev_id s).1.progress) := by
  constructor
  · intro h
    simp only [update_log, h, get_device_save]
    split
    · split <;> rfl
    · split <;> rfl
  · intro h
    simp only [update_log, h, List.getLast?_nil, get_device_save]
    cases hd : (get_device dev_id s).1.last_log <;>
      simp only [hd] <;> split <;> split <;> rfl

/-- Witness for `update_log_progress_spec`: the line
"Downloaded 42% Downloaded 57%" sets progress to 57. -/
theorem update_log_progress_spec_witness :
    (findDownloaded ("Downloaded 42% Downloaded 57%").data).getLast? = some 57 ∧
    (get_device "d"
      (update_log "d" (some "Downloaded 42% Downloaded 57%") stW)).1.progress =
      some 57 := by
  have h := (update_log_progress_spec "d" "Downloaded 42% Downloaded 57%" stW 57).1
  exact ⟨by decide, h (by decide)⟩

/-- **C3**: for a line beginning with "Installing Update Chunk Artifacts.",
`update_log` clears the buffer and broadcasts a null payload, then appends
the line plus a newline to the now-empty buffer and broadcasts that appended
text; afterwards the buffer is exactly the line plus a newline. -/
theorem update_log_install_marker (dev_id line : String) (s : MState)
    (h : listStarts "Installing Update Chunk Artifacts.".data line.data = true) :
    (get_device dev_id (update_log dev_id (some line) s)).1.last_log =
      some (line ++ "\n") ∧
    (update_log dev_id (some line) s).events =
      s.events ++ (subsOf s dev_id).map (fun cb => (cb, (none : Option String)))
        ++ (subsOf s dev_id).map (fun cb => (cb, some (line ++ "\n"))) := by
  have hne : ¬ line = "Skipped Update." := by
    intro he
    rw [he] at h
    exact absurd h (by decide)
  have hsub1 : subsOf (get_device dev_id s).2 dev_id = subsOf s dev_id :=
    subsOf_congr (get_device_subs dev_id s) dev_id
  constructor
  · simp only [update_log, if_pos h, if_neg hne, get_device_save]
    simp [Option.getD_some, string_nil_append]
  · simp only [update_log, if_pos h, if_neg hne, save_device_events,
      publish_log_events_eq, subsOf_publish, hsub1, get_device_events,
      List.append_assoc]

/-- Witness for `update_log_install_marker` at the concrete marker line. -/
theorem update_log_install_marker_witness :
    listStarts "Installing Update Chunk Artifacts.".data
      ("Installing Update Chunk Artifacts.").data = true ∧
    (get_device "d"
      (update_log "d" (some "Installing Update Chunk Artifacts.") stW)).1.last_log =
      some "Installing Update Chunk Artifacts.\n" ∧
    (update_log "d" (some "Installing Update Chunk Artifacts.") stW).events =
      [(7, (none : Option String)),
        (7, some "Installing Update Chunk Artifacts.\n")] := by
  have h := update_log_install_marker "d" "Installing Update Chunk Artifacts." stW
    (by decide)
  refine ⟨by decide, ?_, ?_⟩
  · rw [h.1]
    rfl
  · rw [h.2]
    rfl

/-- Counterexample to **C4** as stated: on a device whose log buffer is still
null, `update_log` with exactly "Skipped Update." changes the buffer (from
null to the empty string). -/
theorem update_log_skipped_mutates_null_buffer :
    (get_device "d" (update_log "d" (some "Skipped Update.") stNullLog)).1.last_log ≠
      (get_device "d" stNullLog).1.last_log := by
  decide

/-- **C4 (amended)**: `update_log` with exactly "Skipped Update." broadcasts
nothing and leaves the progress unchanged; the buffer is left unchanged
except that a null buffer is first normalized to the empty string (the
normalized buffer is persisted).  A null line is a complete no-op. -/
theorem update_log_skipped_amended (dev_id : String) (s : MState) :
    (update_log dev_id (some "Skipped Update.") s).events = s.events ∧
    (get_device dev_id (update_log dev_id (some "Skipped Update.") s)).1.last_log =
      some (((get_device dev_id s).1.last_log).getD "") ∧
    (get_device dev_id (update_log dev_id (some "Skipped Update.") s)).1.progress =
      (get_device dev_id s).1.progress ∧
    update_log dev_id none s = s := by
  have hfd : findDownloaded ("Skipped Update.").data = [] := by decide
  have hmk : listStarts "Installing Update Chunk Artifacts.".data
      ("Skipped Update.").data = false := by decide
  refine ⟨?_, ?_, ?_, rfl⟩
  · simp only [update_log, hfd, List.getLast?_nil, hmk, Bool.false_eq_true,
      if_false, if_pos, save_device_events, get_device_events]
  · simp only [update_log, hfd, List.getLast?_nil, hmk, Bool.false_eq_true,
      if_false, get_device_save]
    cases hd : (get_device dev_id s).1.last_log <;> simp [hd]
  · simp only [update_log, hfd, List.getLast?_nil, hmk, Bool.false_eq_true,
      if_false, get_device_save]
    cases hd : (get_device dev_id s).1.last_log <;> simp [hd]

/-- **C6**: a new subscriber receives exactly one initial payload, equal to
the device's current buffered log, before any subsequent broadcast reaches
it; and the callback is removed from the subscriber list on every exit path
of the subscription scope, with cancellation absorbed rather than surfaced. -/
theorem subscribe_log_spec (dev_id : String) (cb : Nat) (p : Option String)
    (reason : ExitReason) (s : MState) (hcb : cb ∉ subsOf s dev_id) :
    (subscribe_enter dev_id cb s).events =
      s.events ++ [(cb, (get_device dev_id s).1.last_log)] ∧
    subsOf (subscribe_enter dev_id cb s) dev_id = subsOf s dev_id ++ [cb] ∧
    (publish_log dev_id p (subscribe_enter dev_id cb s)).events =
      s.events ++ [(cb, (get_device dev_id s).1.last_log)] ++
        (subsOf s dev_id ++ [cb]).map (fun x => (x, p)) ∧
    (∀ body : MState → MState, (∀ st, (body st).subs = st.subs) →
      subsOf (subscribe_scope dev_id cb reason body s).2 dev_id =
        subsOf s dev_id ∧
      (reason = ExitReason.cancelled →
        (subscribe_scope dev_id cb reason body s).1 = none)) := by
  have henter_subs : subsOf (subscribe_enter dev_id cb s) dev_id =
      subsOf s dev_id ++ [cb] := by
    show (alGet (alSet (get_device dev_id s).2.subs dev_id
      (subsOf (get_device dev_id s).2 dev_id ++ [cb])) dev_id).getD [] = _
    rw [alGet_alSet_self]
    rw [subsOf_congr (get_device_subs dev_id s) dev_id]
    rfl
  have henter_events : (subscribe_enter dev_id cb s).events =
      s.events ++ [(cb, (get_device dev_id s).1.last_log)] := by
    show (get_device dev_id s).2.events ++ _ = _
    rw [get_device_events]
  refine ⟨henter_events, henter_subs, ?_, ?_⟩
  · rw [publish_log_events_eq, henter_events, henter_subs]
  · intro body hbody
    constructor
    · show (alGet (alSet (body (subscribe_enter dev_id cb s)).subs dev_id
        ((subsOf (body (subscribe_enter dev_id cb s)) dev_id).erase cb)) dev_id).getD
          [] = _
      rw [alGet_alSet_self]
      have hb : subsOf (body (subscribe_enter dev_id cb s)) dev_id =
          subsOf s dev_id ++ [cb] := by
        unfold subsOf
        rw [hbody]
        exact henter_subs
      rw [hb, list_erase_append_self hcb]
      rfl
    · intro hr
      rw [hr]
      rfl

/-- Witness for `subscribe_log_spec`: a cancelled scope at the concrete state
`stW` still unregisters the callback. -/
theorem subscribe_log_spec_witness :
    (8 ∉ subsOf stW "d") ∧
    subsOf (subscribe_scope "d" 8 ExitReason.cancelled (fun st => st) stW).2 "d" =
      subsOf stW "d" ∧
    (subscribe_scope "d" 8 ExitReason.cancelled (fun st => st) stW).1 = none ∧
    (subscribe_enter "d" 8 stW).events = [(8, some "old\n")] := by
  have h := subscribe_log_spec "d" 8 none ExitReason.cancelled stW (by decide)
  have h4 := h.2.2.2 (fun st => st) (fun st => rfl)
  refine ⟨by decide, h4.1, h4.2 rfl, ?_⟩
  rw [h.1]
  rfl

/-- **C10**: although `HandlingType` has a value ATTEMPT, neither
`DeviceUpdateManager.get_update` nor `UnknownUpdateManager.get_update` ever
returns it: every outcome is SKIP or FORCED. -/
theorem no_attempt_outcome (dev_id : String) (env : Env) (s : MState) :
    ((get_update dev_id env s).1.1 = HandlingType.skip ∨
      (get_update dev_id env s).1.1 = HandlingType.forced) ∧
    (unknown_get_update env).1 = HandlingType.forced := by
  constructor
  · simp only [get_update]
    split
    · exact Or.inl rfl
    · split
      · exact Or.inl rfl
      · split
        · exact Or.inl rfl
        · exact Or.inr rfl
  · rfl

end Goosebit
